import Mathlib

/-
Verification of the CSP policy-merge core of ember-cli-content-security-policy
(src/index.js) against its natural-language specification.

The JavaScript runtime state is embedded shallowly: policy objects are
insertion-ordered association lists from directive names to values, and both
objects and arrays live in an explicit heap so that in-place mutation and
aliasing (`Object.assign` shallow copies sharing array references) are
expressible.  Each definition mirrors the source line by line; comments cite
the lines of src/index.js being modelled.
-/

deriving instance DecidableEq for Except

/-- A JavaScript value that can occur as a directive value in a policy object:
a string, a reference to an array of source tokens (arrays live in the heap so
aliasing is visible), `null`, or any other value (number, boolean, object...),
of which only its truthiness is relevant to the code under study. -/
inductive JVal where
  | vStr (s : String)
  | vArr (r : Nat)
  | vNull
  | vOther (truthy : Bool)
deriving DecidableEq, Repr

/-- A policy object: an insertion-ordered association list from directive name
to value, as a JavaScript object with string keys. -/
abbrev PolicyObj := List (String × JVal)

/-- Reading `o[k]`: the first binding of key `k`, `none` when the key is
absent (JavaScript `undefined`). -/
def objGet : PolicyObj → String → Option JVal
  | [], _ => none
  | (k₀, v₀) :: rest, k => if k₀ = k then some v₀ else objGet rest k

/-- The JavaScript `k in o` test: key presence, regardless of the value. -/
def objHasKey (o : PolicyObj) (k : String) : Bool :=
  (objGet o k).isSome

/-- Writing `o[k] = v`: replace the value at the first binding of `k` keeping
its position, or append a new binding when the key is absent (JavaScript
object assignment semantics). -/
def objSet : PolicyObj → String → JVal → PolicyObj
  | [], k, v => [(k, v)]
  | (k₀, v₀) :: rest, k, v =>
      if k₀ = k then (k, v) :: rest else (k₀, v₀) :: objSet rest k v

/-- The JavaScript heap: a store of policy objects and a store of source-list
arrays, both addressed by allocation index.  References held in `JVal.vArr`
and in configuration records point into these stores. -/
structure JsHeap where
  objects : List PolicyObj
  arrays : List (List String)
deriving DecidableEq, Repr

/-- Dereference an object. A dangling reference reads as the empty object;
no reachable state produces one. -/
def JsHeap.getObj (h : JsHeap) (r : Nat) : PolicyObj :=
  (h.objects.get? r).getD []

/-- Dereference an array. -/
def JsHeap.getArr (h : JsHeap) (r : Nat) : List String :=
  (h.arrays.get? r).getD []

/-- Overwrite the object stored at `r` (in-place mutation of a JavaScript
object, observed by every holder of the reference). -/
def JsHeap.setObj (h : JsHeap) (r : Nat) (o : PolicyObj) : JsHeap :=
  { h with objects := h.objects.set r o }

/-- Allocate a fresh object (`Object.assign(\x7b\x7d, ...)` allocates); returns
the extended heap and the fresh reference. -/
def JsHeap.allocObj (h : JsHeap) (o : PolicyObj) : JsHeap × Nat :=
  ({ h with objects := h.objects ++ [o] }, h.objects.length)

/- Constants of src/index.js, lines 6-26. -/

def CSP_SELF : String := "'self'"
def CSP_NONE : String := "'none'"
def REPORT_PATH : String := "/csp-report"
def CSP_HEADER : String := "Content-Security-Policy"
def CSP_HEADER_REPORT_ONLY : String := "Content-Security-Policy-Report-Only"
def CSP_REPORT_URI : String := "report-uri"
def CSP_FRAME_ANCESTORS : String := "frame-ancestors"
def CSP_SANDBOX : String := "sandbox"

def META_UNSUPPORTED_DIRECTIVES : List String :=
  [CSP_REPORT_URI, CSP_FRAME_ANCESTORS, CSP_SANDBOX]

def STATIC_TEST_NONCE : String := "abcdefg"

/-- unsupportedDirectives (src/index.js lines 28-32): the meta-forbidden
directive names that occur as keys of the policy object, via
`META_UNSUPPORTED_DIRECTIVES.filter(name => name in policyObject)`. -/
def unsupportedDirectives (policyObject : PolicyObj) : List String :=
  META_UNSUPPORTED_DIRECTIVES.filter (fun name => objHasKey policyObject name)

/-- JavaScript `String.prototype.split(' ')` over the character data: split at
every occurrence of the space character, keeping empty pieces. -/
def jsSplitAux : List Char → List Char → List String
  | [], acc => [String.mk acc.reverse]
  | c :: cs, acc =>
      if c = ' ' then String.mk acc.reverse :: jsSplitAux cs []
      else jsSplitAux cs (c :: acc)

/-- Model of `s.split(' ')`. -/
def jsSplit (s : String) : List String :=
  jsSplitAux s.data []

/-- JavaScript `Array.prototype.join(sep)`. -/
def jsJoin (sep : String) : List String → String
  | [] => ""
  | [x] => x
  | x :: y :: ys => x ++ sep ++ jsJoin sep (y :: ys)

/-- Lines 49-58 of appendSourceList: read `policyObject[name]`, cast a truthy
string into an array by splitting on spaces (line 52-54; the empty string is
falsy and skips the cast), and reject any remaining value that is neither
`null`, nor `undefined`, nor an array, with the error thrown at line 57.
Returns `none` for the falsy values `undefined` and `null` (both take the
fallback branch at line 60) and `some arr` for an array value. -/
def readOldValue (h : JsHeap) (policyObject : PolicyObj) (name : String) :
    Except String (Option (List String)) :=
  match objGet policyObject name with
  | none => .ok none
  | some .vNull => .ok none
  | some (.vStr s) =>
      if s = "" then .error "Unknown source list value"
      else .ok (some (jsSplit s))
  | some (.vArr r) => .ok (some (h.getArr r))
  | some (.vOther _) => .error "Unknown source list value"

/-- Line 62 of appendSourceList: `policyObject['default-src'] || []`.  A falsy
value (absent, null, empty string, falsy non-array) yields the empty array; an
array reference yields the referenced array, unnormalized; a truthy value that
is not an array (a non-empty string, a truthy non-array) is returned as-is by
`||` and the subsequent `.slice()` / `.push(...)` at lines 68-69 then throws a
TypeError, because the value is not an array. -/
def defaultSrcFallback (h : JsHeap) (policyObject : PolicyObj) :
    Except String (List String) :=
  match objGet policyObject "default-src" with
  | none => .ok []
  | some .vNull => .ok []
  | some (.vStr s) => if s = "" then .ok [] else .error "TypeError"
  | some (.vArr r) => .ok (h.getArr r)
  | some (.vOther t) => if t then .error "TypeError" else .ok []

/-- appendSourceList (src/index.js lines 47-71).  Reads the current value of
the directive, casting string syntax into an array (lines 49-58); when the
value is falsy or an empty array, falls back to copying `default-src`
(lines 60-62); otherwise uses the existing array (lines 63-65); then copies the
base list (`slice()`, line 68, so no existing array cell is ever written),
pushes the new token (line 69) and assigns the space-joined string back onto
the same policy object (line 70).  The function mutates the object stored at
`pr` in place and returns nothing in JavaScript; here the updated heap is the
result. -/
def appendSourceList (h : JsHeap) (pr : Nat) (name sourceList : String) :
    Except String JsHeap :=
  match readOldValue h (h.getObj pr) name with
  | .error e => .error e
  | .ok oldValue =>
    match (match oldValue with
           | none => defaultSrcFallback h (h.getObj pr)
           | some arr =>
               if arr.length = 0 then defaultSrcFallback h (h.getObj pr)
               else .ok arr) with
    | .error e => .error e
    | .ok oldSourceList =>
        .ok (h.setObj pr (objSet (h.getObj pr) name
              (.vStr (jsJoin " " (oldSourceList ++ [sourceList])))))

/-- The argument record destructured by allowLiveReload at line 75:
`let { hostname, port, ssl } = liveReloadConfig`.  `hostname` is `none`
when the object carries no `hostname` key (destructuring yields `undefined`). -/
structure LiveReloadArg where
  hostname : Option String
  port : Nat
  ssl : Bool
deriving DecidableEq, Repr

/-- Line 77: the candidate host list
`['localhost', '0.0.0.0', hostname].filter(Boolean)` — the two literals always
pass the truthiness filter, an undefined or empty configured hostname is
dropped. -/
def liveReloadCandidates (hostname : Option String) : List String :=
  (["localhost", "0.0.0.0"] ++ hostname.toList).filter (fun s => s ≠ "")

/-- The body of the forEach loop at lines 77-82, iterated over the remaining
candidate hostnames: append the websocket origin to connect-src and the bare
host to script-src, threading the mutated heap. -/
def liveReloadHosts (pr : Nat) (port : Nat) (ssl : Bool) :
    JsHeap → List String → Except String JsHeap
  | h, [] => .ok h
  | h, hostname :: rest =>
      let protocol := if ssl then "wss://" else "ws://"
      let host := hostname ++ ":" ++ toString port
      match appendSourceList h pr "connect-src" (protocol ++ host) with
      | .error e => .error e
      | .ok h₁ =>
          match appendSourceList h₁ pr "script-src" host with
          | .error e => .error e
          | .ok h₂ => liveReloadHosts pr port ssl h₂ rest

/-- allowLiveReload (src/index.js lines 74-83). -/
def allowLiveReload (h : JsHeap) (pr : Nat) (c : LiveReloadArg) :
    Except String JsHeap :=
  liveReloadHosts pr c.port c.ssl h (liveReloadCandidates c.hostname)

/-- The livereload settings cached by serverMiddleware (lines 92-98):
`this._liveReload = { host: options.liveReloadHost, port: ..., ssl: ... }`.
Note the key is `host`, not `hostname`. -/
structure StoredLiveReload where
  host : Option String
  port : Nat
  ssl : Bool
deriving DecidableEq, Repr

/-- Passing `this._liveReload` to allowLiveReload (lines 117 and 179): the
stored object has keys `host`, `port`, `ssl`, while allowLiveReload
destructures `hostname` (line 75); a key missing from a JavaScript object
destructures to `undefined`, so the configured host never reaches the
candidate list — only `port` and `ssl` survive the handoff. -/
def storedToArg (s : StoredLiveReload) : LiveReloadArg :=
  { hostname := none, port := s.port, ssl := s.ssl }

/-- The express middleware `options` consulted at lines 122-124:
`options.host`, `options.port`, `options.ssl`. -/
structure MiddlewareOptions where
  host : Option String
  port : Nat
  ssl : Bool
deriving DecidableEq, Repr

/-- The addon configuration `this._config` as consumed by the two delivery
paths: `enabled`, `reportOnly`, a reference to the configured policy object,
and whether `delivery` contains `'meta'`. -/
structure AddonConfig where
  enabled : Bool
  reportOnly : Bool
  policy : Nat
  deliveryMeta : Bool
deriving DecidableEq, Repr

/-- Character-list test: does `pat` occur at the head of `cs`? -/
def leadsWith : List Char → List Char → Bool
  | [], _ => true
  | _ :: _, [] => false
  | p :: ps, c :: cs => p = c && leadsWith ps cs

/-- Character-list test: does `pat` occur anywhere in `cs`? -/
def occursIn (pat : List Char) : List Char → Bool
  | [] => leadsWith pat []
  | c :: cs => leadsWith pat (c :: cs) || occursIn pat cs

/-- Model of the JavaScript test `s.indexOf(pat) !== -1`. -/
def jsIndexOfFound (s pat : String) : Bool :=
  occursIn pat.data s.data

/-- Lines 122-124: `options.host || 'localhost'`, `options.ssl ? 'https://' :
'http://'`, and the origin `protocol + host + ':' + port`. -/
def ecOrigin (options : MiddlewareOptions) : String :=
  (if options.ssl then "https://" else "http://") ++
    (match options.host with
     | none => "localhost"
     | some s => if s = "" then "localhost" else s) ++
    ":" ++ toString options.port

/-- Lines 120-127 of serverMiddleware: only when the header name contains
`Report-Only` and the working policy object has no `report-uri` key, append
the report origin to connect-src through appendSourceList and then assign
`report-uri` directly to the origin followed by REPORT_PATH; otherwise leave
the object untouched. -/
def reportStep (h : JsHeap) (pr : Nat) (header : String)
    (options : MiddlewareOptions) : Except String JsHeap :=
  if jsIndexOfFound header "Report-Only" && !(objHasKey (h.getObj pr) "report-uri") then
    match appendSourceList h pr "connect-src" (ecOrigin options) with
    | .error e => .error e
    | .ok h₁ =>
        .ok (h₁.setObj pr (objSet (h₁.getObj pr) "report-uri"
              (.vStr (ecOrigin options ++ REPORT_PATH))))
  else .ok h

/-- Modelled from the spec: `buildPolicyString` is imported from `lib/utils`
(line 4), which is not among the provided sources; the PolicySerializer
contract in the spec defines the string form of a directive value as the
sequence joined by single spaces or the raw string used as-is, with absent
and empty values contributing nothing. -/
def valueStringForm (h : JsHeap) : JVal → String
  | .vStr s => s
  | .vArr r => jsJoin " " (h.getArr r)
  | .vNull => ""
  | .vOther _ => ""

/-- Modelled from the spec: the directive clauses of the serialized policy —
for each directive present with a non-empty value, in insertion order, the
clause `name ++ " " ++ value`. -/
def policyClauses (h : JsHeap) (o : PolicyObj) : List String :=
  (o.filter (fun p => valueStringForm h p.2 != "")).map
    (fun p => p.1 ++ " " ++ valueStringForm h p.2)

/-- Modelled from the spec: `buildPolicyString` of `lib/utils` joins the
directive clauses with "; " and returns the empty string when no directive
has a non-empty value. -/
def buildPolicyString (h : JsHeap) (o : PolicyObj) : String :=
  jsJoin "; " (policyClauses h o)

/-- An observable action performed on the express response object. -/
inductive ResponseAction where
  | removeHeader (name : String)
  | setHeader (name value : String)
deriving DecidableEq, Repr

/-- Lines 129-146 of serverMiddleware: serialize the working policy; when the
result is empty, fall through to `next()` with no header traffic at all;
otherwise clear both standard header names, set the active one, and repeat for
the legacy `X-` prefixed names. -/
def emitStep (h : JsHeap) (pr : Nat) (header : String) : List ResponseAction :=
  let headerValue := buildPolicyString h (h.getObj pr)
  if headerValue = "" then []
  else
    [ .removeHeader CSP_HEADER,
      .removeHeader CSP_HEADER_REPORT_ONLY,
      .setHeader header headerValue,
      .removeHeader ("X-" ++ CSP_HEADER),
      .removeHeader ("X-" ++ CSP_HEADER_REPORT_ONLY),
      .setHeader ("X-" ++ header) headerValue ]

/-- The nonce token appended to script-src: the source inlines the expression
`"'nonce-" + STATIC_TEST_NONCE + "'"` at both call sites (lines 113 and 175). -/
def nonceToken : String := "'nonce-" ++ STATIC_TEST_NONCE ++ "'"

/-- Lines 112-114 of serverMiddleware (and line 175 of contentFor): append the
static test nonce to script-src.  The guard `if (policyObject)` of line 112 is
always taken, because the object returned by `Object.assign` is truthy. -/
def testNonceStep (h : JsHeap) (pr : Nat) : Except String JsHeap :=
  appendSourceList h pr "script-src" nonceToken

/-- Lines 116-118 and 178-180: run allowLiveReload on the cached settings when
livereload is active. -/
def liveReloadStep (h : JsHeap) (pr : Nat)
    (liveReload : Option StoredLiveReload) : Except String JsHeap :=
  match liveReload with
  | some lr => allowLiveReload h pr (storedToArg lr)
  | none => .ok h

/-- Line 106: the header name chosen from the reportOnly flag. -/
def requestHeader (reportOnly : Bool) : String :=
  if reportOnly then CSP_HEADER_REPORT_ONLY else CSP_HEADER

/-- Line 108 (and line 172): `Object.assign(\x7b\x7d, this._config.policy)` — a
fresh object cell holding the same bindings, sharing the source-list array
references with the configured base policy. -/
def workingCopy (h : JsHeap) (config : AddonConfig) : JsHeap × Nat :=
  h.allocObj (h.getObj config.policy)

/-- The request handler installed by serverMiddleware (src/index.js lines
100-147), per request: short-circuit when disabled (lines 101-104); pick the
header name from reportOnly (line 106); shallow-copy the configured policy
object into a fresh heap cell (line 108); append the static test nonce
(lines 110-114); apply livereload directives (lines 116-118); inject the
report endpoint (lines 120-127); serialize and emit headers (lines 129-146).
The result is the final heap together with the response actions performed. -/
def processRequest (h : JsHeap) (config : AddonConfig)
    (liveReload : Option StoredLiveReload) (options : MiddlewareOptions) :
    Except String (JsHeap × List ResponseAction) :=
  if config.enabled = false then .ok (h, [])
  else
    match testNonceStep (workingCopy h config).1 (workingCopy h config).2 with
    | .error e => .error e
    | .ok h₂ =>
        match liveReloadStep h₂ (workingCopy h config).2 liveReload with
        | .error e => .error e
        | .ok h₃ =>
            match reportStep h₃ (workingCopy h config).2
                (requestHeader config.reportOnly) options with
            | .error e => .error e
            | .ok h₄ =>
                .ok (h₄, emitStep h₄ (workingCopy h config).2
                      (requestHeader config.reportOnly))

/-- Line 174-176 of contentFor: the nonce is appended on the meta path only
when the application environment is `test` (the `policyObject &&` conjunct is
always truthy). -/
def metaNonceStep (environment : String) (h : JsHeap) (pr : Nat) :
    Except String JsHeap :=
  if environment = "test" then testNonceStep h pr else .ok h

/-- The warning printed at lines 186-188 for one unsupported directive. -/
def metaWarning (name : String) : String :=
  "CSP delivered via meta does not support `" ++ name ++
    "`, per the W3C recommendation."

/-- The result of the meta-delivery path: the warnings printed and the meta
tag returned, if any. -/
structure MetaResult where
  warnings : List String
  metaTag : Option String
deriving DecidableEq, Repr

/-- The `type === 'head'` branch of contentFor (src/index.js lines 159-197):
nothing when disabled or when delivery does not include `meta`; otherwise
shallow-copy the configured policy (line 172), append the nonce only in the
test environment (lines 174-176), apply livereload (lines 178-180), serialize
(line 183), warn once per unsupported directive present (lines 185-189), and
return the meta tag only for a non-empty policy string (lines 191-196). -/
def contentForHead (h : JsHeap) (config : AddonConfig)
    (liveReload : Option StoredLiveReload) (environment : String) :
    Except String (JsHeap × MetaResult) :=
  if config.enabled = false then .ok (h, ⟨[], none⟩)
  else if config.deliveryMeta = false then .ok (h, ⟨[], none⟩)
  else
    match metaNonceStep environment (workingCopy h config).1 (workingCopy h config).2 with
    | .error e => .error e
    | .ok h₂ =>
        match liveReloadStep h₂ (workingCopy h config).2 liveReload with
        | .error e => .error e
        | .ok h₃ =>
            if buildPolicyString h₃ (h₃.getObj (workingCopy h config).2) = "" then
              .ok (h₃, ⟨(unsupportedDirectives (h₃.getObj (workingCopy h config).2)).map metaWarning,
                    none⟩)
            else
              .ok (h₃, ⟨(unsupportedDirectives (h₃.getObj (workingCopy h config).2)).map metaWarning,
                    some ("<meta http-equiv=\"" ++ CSP_HEADER ++ "\" content=\"" ++
                          buildPolicyString h₃ (h₃.getObj (workingCopy h config).2) ++ "\">")⟩)

/-- Frame relation between two heaps: all arrays and all objects other than
the one at `pr` agree. -/
def framePreserves (pr : Nat) (h h' : JsHeap) : Prop :=
  h'.arrays = h.arrays ∧ ∀ r, r ≠ pr → h'.objects.get? r = h.objects.get? r

/- Concrete states used by the individual verification results. -/

def hC1x : JsHeap := ⟨[[("default-src", .vStr "'self' a.com")]], []⟩

def hC1w : JsHeap := ⟨[[("default-src", .vArr 0)]], [["'self'", "a.com"]]⟩

def hC2 : JsHeap := ⟨[[("script-src", .vArr 0)]], [["'self'"]]⟩

def hC2after : JsHeap := ⟨[[("script-src", .vStr "'self' 'nonce-x'")]], [["'self'"]]⟩

def hC4w : JsHeap := ⟨[[("script-src", .vArr 0)]], [["'self'"]]⟩

def hC5x : JsHeap := ⟨[[("script-src", .vStr "")]], []⟩

def hC5a : JsHeap := ⟨[[("connect-src", .vOther true)]], []⟩

def hC5b : JsHeap := ⟨[[]], []⟩

def hC6 : JsHeap := ⟨[[("connect-src", .vArr 0), ("script-src", .vArr 1)]], [["'self'"], ["'self'"]]⟩

def hC6res : JsHeap :=
  ⟨[[("connect-src", .vStr "'self' ws://localhost:4200 ws://0.0.0.0:4200 ws://example.com:4200"),
     ("script-src", .vStr "'self' localhost:4200 0.0.0.0:4200 example.com:4200")]],
   [["'self'"], ["'self'"]]⟩

def hC7a : JsHeap := ⟨[[("report-uri", .vStr "https://r.example/collect")]], []⟩

def hC7b : JsHeap := ⟨[[]], []⟩

def optsC7 : MiddlewareOptions := ⟨none, 4200, false⟩

def hC7res : JsHeap :=
  ⟨[[("connect-src", .vStr "http://localhost:4200"),
     ("report-uri", .vStr "http://localhost:4200/csp-report")]], []⟩

def hC8 : JsHeap := ⟨[[("default-src", .vArr 0), ("img-src", .vNull)]], [[]]⟩

def hW : JsHeap :=
  ⟨[[("default-src", .vArr 0), ("script-src", .vArr 1), ("connect-src", .vArr 2)]],
   [["'none'"], ["'self'"], ["'self'"]]⟩

def cfgW : AddonConfig := ⟨true, true, 0, false⟩

def optsW : MiddlewareOptions := ⟨none, 4200, false⟩

def hWres : JsHeap :=
  ⟨[[("default-src", .vArr 0), ("script-src", .vArr 1), ("connect-src", .vArr 2)],
    [("default-src", .vArr 0), ("script-src", .vStr "'self' 'nonce-abcdefg'"),
     ("connect-src", .vStr "'self' http://localhost:4200"),
     ("report-uri", .vStr "http://localhost:4200/csp-report")]],
   [["'none'"], ["'self'"], ["'self'"]]⟩

def actsW : List ResponseAction :=
  [ .removeHeader "Content-Security-Policy",
    .removeHeader "Content-Security-Policy-Report-Only",
    .setHeader "Content-Security-Policy-Report-Only"
      "default-src 'none'; script-src 'self' 'nonce-abcdefg'; connect-src 'self' http://localhost:4200; report-uri http://localhost:4200/csp-report",
    .removeHeader "X-Content-Security-Policy",
    .removeHeader "X-Content-Security-Policy-Report-Only",
    .setHeader "X-Content-Security-Policy-Report-Only"
      "default-src 'none'; script-src 'self' 'nonce-abcdefg'; connect-src 'self' http://localhost:4200; report-uri http://localhost:4200/csp-report" ]

def hC9 : JsHeap :=
  ⟨[[("default-src", .vArr 0), ("report-uri", .vStr "")]], [["'none'"]]⟩

def cfgC9 : AddonConfig := ⟨true, false, 0, true⟩

def hC9res : JsHeap :=
  ⟨[[("default-src", .vArr 0), ("report-uri", .vStr "")],
    [("default-src", .vArr 0), ("report-uri", .vStr "")]], [["'none'"]]⟩

def oC9w : PolicyObj := [("report-uri", .vStr "https://r.example/collect")]

def hC9wheap : JsHeap := ⟨[], []⟩

def hN : JsHeap := ⟨[[("script-src", .vArr 0)]], [["'self'"]]⟩

def hNres : JsHeap := ⟨[[("script-src", .vStr "'self' 'nonce-abcdefg'")]], [["'self'"]]⟩

/- Helper lemmas about the embedding. -/

theorem string_empty_append (s : String) : "" ++ s = s := by
  cases s
  rfl

theorem string_append_assoc (a b c : String) : a ++ b ++ c = a ++ (b ++ c) := by
  cases a with | mk la => cases b with | mk lb => cases c with | mk lc =>
  exact congrArg String.mk (List.append_assoc la lb lc)

theorem jsJoin_snoc (sep t : String) (l : List String) :
    ∃ p, jsJoin sep (l ++ [t]) = p ++ t := by
  induction l with
  | nil => exact ⟨"", by simp [jsJoin, string_empty_append]⟩
  | cons x xs ih =>
    cases xs with
    | nil => exact ⟨x ++ sep, by simp [jsJoin, string_append_assoc]⟩
    | cons y ys =>
      obtain ⟨p, hp⟩ := ih
      refine ⟨x ++ sep ++ p, ?_⟩
      have step : jsJoin sep ((x :: y :: ys) ++ [t]) =
          x ++ sep ++ jsJoin sep ((y :: ys) ++ [t]) := rfl
      rw [step, hp, string_append_assoc (x ++ sep) p t]

theorem jsSplitAux_ne_nil (cs : List Char) (acc : List Char) :
    jsSplitAux cs acc ≠ [] := by
  induction cs generalizing acc with
  | nil => simp [jsSplitAux]
  | cons c cs ih =>
    by_cases hc : c = ' ' <;> simp [jsSplitAux, hc, ih]

theorem jsSplit_ne_nil (s : String) : jsSplit s ≠ [] :=
  jsSplitAux_ne_nil s.data []

theorem list_getq_set_ne {α : Type} (l : List α) (i j : Nat) (a : α)
    (hij : i ≠ j) : (l.set i a).get? j = l.get? j := by
  induction l generalizing i j with
  | nil => simp
  | cons x xs ih =>
    cases i with
    | zero =>
      cases j with
      | zero => exact absurd rfl hij
      | succ j => simp [List.set]
    | succ i =>
      cases j with
      | zero => simp [List.set]
      | succ j => simpa [List.set] using ih i j (by omega)

theorem list_getq_set_self {α : Type} (l : List α) (i : Nat) (a : α)
    (hi : i < l.length) : (l.set i a).get? i = some a := by
  induction l generalizing i with
  | nil => simp at hi
  | cons x xs ih =>
    cases i with
    | zero => simp [List.set]
    | succ i => simpa [List.set] using ih i (by simpa using hi)

theorem list_getq_append_left {α : Type} (l l' : List α) (i : Nat)
    (hi : i < l.length) : (l ++ l').get? i = l.get? i := by
  induction l generalizing i with
  | nil => simp at hi
  | cons x xs ih =>
    cases i with
    | zero => simp
    | succ i => simpa using ih i (by simpa using hi)

theorem objGet_objSet_self (o : PolicyObj) (k : String) (v : JVal) :
    objGet (objSet o k v) k = some v := by
  induction o with
  | nil => simp [objSet, objGet]
  | cons p rest ih =>
    obtain ⟨k₀, v₀⟩ := p
    by_cases hk : k₀ = k
    · simp [objSet, hk, objGet]
    · simp [objSet, hk, objGet, ih]

theorem objGet_objSet_ne (o : PolicyObj) (k k' : String) (v : JVal)
    (hk : k' ≠ k) : objGet (objSet o k v) k' = objGet o k' := by
  induction o with
  | nil => simp [objSet, objGet, Ne.symm hk]
  | cons p rest ih =>
    obtain ⟨k₀, v₀⟩ := p
    by_cases h₀ : k₀ = k
    · subst h₀
      simp [objSet, objGet, Ne.symm hk]
    · by_cases h₁ : k₀ = k'
      · simp [objSet, objGet, h₀, h₁, hk]
      · simp [objSet, objGet, h₀, h₁, ih]

theorem getObj_setObj_self (h : JsHeap) (r : Nat) (o : PolicyObj)
    (hr : r < h.objects.length) : (h.setObj r o).getObj r = o := by
  show ((h.objects.set r o).get? r).getD [] = o
  rw [list_getq_set_self _ _ _ hr]
  rfl

theorem getObj_setObj_ne (h : JsHeap) (r r' : Nat) (o : PolicyObj)
    (hr : r' ≠ r) : (h.setObj r o).getObj r' = h.getObj r' := by
  show ((h.objects.set r o).get? r').getD [] = (h.objects.get? r').getD []
  rw [list_getq_set_ne _ _ _ _ (Ne.symm hr)]

/-- Every successful appendSourceList produces exactly the heap in which the
named directive of the object at `pr` has been reassigned to the space-joined
extension of some base list by the new token; nothing else changes. -/
theorem appendSourceList_ok_shape {h : JsHeap} {pr : Nat} {name tok : String}
    {h' : JsHeap} (hok : appendSourceList h pr name tok = .ok h') :
    ∃ base, h' = h.setObj pr (objSet (h.getObj pr) name
      (.vStr (jsJoin " " (base ++ [tok])))) := by
  unfold appendSourceList at hok
  split at hok
  · exact absurd hok (by simp)
  · split at hok
    · exact absurd hok (by simp)
    · cases hok
      exact ⟨_, rfl⟩

theorem framePreserves_refl (pr : Nat) (h : JsHeap) : framePreserves pr h h :=
  ⟨rfl, fun _ _ => rfl⟩

theorem framePreserves_getObj {pr : Nat} {h h' : JsHeap}
    (hf : framePreserves pr h h') (r : Nat) (hr : r ≠ pr) :
    h'.getObj r = h.getObj r := by
  show (h'.objects.get? r).getD [] = (h.objects.get? r).getD []
  rw [hf.2 r hr]

theorem framePreserves_trans {pr : Nat} {h h₁ h₂ : JsHeap}
    (a : framePreserves pr h h₁) (b : framePreserves pr h₁ h₂) :
    framePreserves pr h h₂ :=
  ⟨b.1.trans a.1, fun r hr => (b.2 r hr).trans (a.2 r hr)⟩

theorem setObj_framePreserves (h : JsHeap) (pr : Nat) (o : PolicyObj) :
    framePreserves pr h (h.setObj pr o) :=
  ⟨rfl, fun _r hr => list_getq_set_ne _ _ _ _ (Ne.symm hr)⟩

theorem appendSourceList_framePreserves {h : JsHeap} {pr : Nat}
    {name tok : String} {h' : JsHeap}
    (hok : appendSourceList h pr name tok = .ok h') :
    framePreserves pr h h' := by
  obtain ⟨base, rfl⟩ := appendSourceList_ok_shape hok
  exact setObj_framePreserves h pr _

theorem appendSourceList_objects_length {h : JsHeap} {pr : Nat}
    {name tok : String} {h' : JsHeap}
    (hok : appendSourceList h pr name tok = .ok h') :
    h'.objects.length = h.objects.length := by
  obtain ⟨base, rfl⟩ := appendSourceList_ok_shape hok
  simp [JsHeap.setObj]

theorem testNonceStep_framePreserves {h : JsHeap} {pr : Nat} {h' : JsHeap}
    (hok : testNonceStep h pr = .ok h') : framePreserves pr h h' :=
  appendSourceList_framePreserves hok

theorem liveReloadHosts_framePreserves {pr port : Nat} {ssl : Bool} :
    ∀ (hosts : List String) (h h' : JsHeap),
      liveReloadHosts pr port ssl h hosts = .ok h' → framePreserves pr h h' := by
  intro hosts
  induction hosts with
  | nil =>
    intro h h' hok
    simp only [liveReloadHosts] at hok
    cases hok
    exact framePreserves_refl pr h
  | cons x rest ih =>
    intro h h' hok
    simp only [liveReloadHosts] at hok
    split at hok
    · exact absurd hok (by simp)
    · rename_i h₁ e₁
      split at hok
      · exact absurd hok (by simp)
      · rename_i h₂ e₂
        exact framePreserves_trans
          (framePreserves_trans (appendSourceList_framePreserves e₁)
            (appendSourceList_framePreserves e₂)) (ih _ _ hok)

theorem liveReloadStep_framePreserves {h : JsHeap} {pr : Nat}
    {lr : Option StoredLiveReload} {h' : JsHeap}
    (hok : liveReloadStep h pr lr = .ok h') : framePreserves pr h h' := by
  cases lr with
  | none =>
    simp only [liveReloadStep] at hok
    cases hok
    exact framePreserves_refl pr h
  | some c =>
    exact liveReloadHosts_framePreserves _ _ _ hok

theorem reportStep_framePreserves {h : JsHeap} {pr : Nat} {header : String}
    {options : MiddlewareOptions} {h' : JsHeap}
    (hok : reportStep h pr header options = .ok h') : framePreserves pr h h' := by
  unfold reportStep at hok
  split at hok
  · split at hok
    · exact absurd hok (by simp)
    · rename_i h₁ e₁
      cases hok
      exact framePreserves_trans (appendSourceList_framePreserves e₁)
        (setObj_framePreserves h₁ pr _)
  · cases hok
    exact framePreserves_refl pr h

theorem metaNonceStep_framePreserves {env : String} {h : JsHeap} {pr : Nat}
    {h' : JsHeap} (hok : metaNonceStep env h pr = .ok h') :
    framePreserves pr h h' := by
  unfold metaNonceStep at hok
  split at hok
  · exact appendSourceList_framePreserves hok
  · cases hok
    exact framePreserves_refl pr h


/- Verification results. -/

/-- C1, counterexample.  The claim extends the fallback to a `default-src`
stored as a raw space-separated string: on the code, line 62 uses the raw
value without normalization, and `"'self' a.com".slice()` is a string on
which `push` is not a function, so the append throws a TypeError instead of
yielding `connect-src = "'self' a.com b.com"`. -/
theorem string_default_src_type_error :
    appendSourceList hC1x 0 "connect-src" "b.com" = .error "TypeError" := by
  decide

/-- C1, amended.  When the directive is absent, null, or an empty array, the
append gives it the raw value of `default-src` (the empty sequence when
`default-src` is absent, null or the empty string; its array value verbatim,
with no normalization, when it is an array) concatenated with the new token,
joined by single spaces. -/
theorem appendSourceList_fallback_append (h : JsHeap) (pr : Nat)
    (name tok : String) (base : List String)
    (hold : objGet (h.getObj pr) name = none ∨
            objGet (h.getObj pr) name = some .vNull ∨
            ∃ r, objGet (h.getObj pr) name = some (.vArr r) ∧ h.getArr r = [])
    (hds : (objGet (h.getObj pr) "default-src" = none ∨
            objGet (h.getObj pr) "default-src" = some .vNull ∨
            objGet (h.getObj pr) "default-src" = some (.vStr "")) ∧ base = [] ∨
           ∃ r, objGet (h.getObj pr) "default-src" = some (.vArr r) ∧
             base = h.getArr r) :
    appendSourceList h pr name tok =
      .ok (h.setObj pr (objSet (h.getObj pr) name
        (.vStr (jsJoin " " (base ++ [tok]))))) := by
  have hfb : defaultSrcFallback h (h.getObj pr) = .ok base := by
    rcases hds with ⟨hcase, rfl⟩ | ⟨r, hr, rfl⟩
    · rcases hcase with hh | hh | hh <;> simp [defaultSrcFallback, hh]
    · simp [defaultSrcFallback, hr]
  rcases hold with hh | hh | ⟨r, hr, he⟩
  · simp [appendSourceList, readOldValue, hh, hfb]
  · simp [appendSourceList, readOldValue, hh, hfb]
  · simp [appendSourceList, readOldValue, hr, he, hfb]

/-- C1, witness: the claim's own example, where `default-src` is stored as an
array — `P = ("default-src" : ["'self'", "a.com"])`, appending `b.com` to the
absent `connect-src` yields `connect-src = "'self' a.com b.com"`. -/
theorem appendSourceList_fallback_append_witness :
    appendSourceList hC1w 0 "connect-src" "b.com" =
      .ok (hC1w.setObj 0 (objSet (hC1w.getObj 0) "connect-src"
        (.vStr (jsJoin " " (["'self'", "a.com"] ++ ["b.com"]))))) :=
  appendSourceList_fallback_append hC1w 0 "connect-src" "b.com"
    ["'self'", "a.com"] (Or.inl (by decide)) (Or.inr ⟨0, by decide, by decide⟩)

/-- C2, counterexample.  appendSourceList mutates its input model: after
appending `'nonce-x'` to `script-src` of the policy object stored at
reference 0, re-reading that same object (same reference) no longer gives
the original directive value — the claim that every directive of P, including
D, keeps its original value when re-read from P is false. -/
theorem appendSourceList_mutation_counterexample :
    appendSourceList hC2 0 "script-src" "'nonce-x'" = .ok hC2after ∧
    hC2after.getObj 0 ≠ hC2.getObj 0 ∧
    objGet (hC2after.getObj 0) "script-src" ≠ objGet (hC2.getObj 0) "script-src" := by
  refine ⟨by decide, by decide, by decide⟩

/-- C2, amended.  appendSourceList updates the passed policy object in place
(in JavaScript it returns `undefined`): the named directive of the object at
`pr` is reassigned to the space-joined extension of some base list by the new
token, while every other directive of that object, every other object, and
every source-list array cell are left untouched — the source list itself is
copied (`slice()`) before being extended, never mutated. -/
theorem appendSourceList_in_place_update (h : JsHeap) (pr : Nat)
    (name tok : String) (h' : JsHeap)
    (hok : appendSourceList h pr name tok = .ok h')
    (hpr : pr < h.objects.length) :
    h'.arrays = h.arrays ∧
    (∀ r, r ≠ pr → h'.objects.get? r = h.objects.get? r) ∧
    (∀ k, k ≠ name → objGet (h'.getObj pr) k = objGet (h.getObj pr) k) ∧
    ∃ base, objGet (h'.getObj pr) name =
      some (.vStr (jsJoin " " (base ++ [tok]))) := by
  obtain ⟨base, rfl⟩ := appendSourceList_ok_shape hok
  refine ⟨rfl, fun r hr => list_getq_set_ne _ _ _ _ (Ne.symm hr), ?_, ?_⟩
  · intro k hk
    rw [getObj_setObj_self _ _ _ hpr, objGet_objSet_ne _ _ _ _ hk]
  · exact ⟨base, by rw [getObj_setObj_self _ _ _ hpr, objGet_objSet_self]⟩

/-- C2, witness: at the concrete mutation above, the arrays are untouched and
an unrelated directive reads unchanged, while `script-src` now holds the
joined string. -/
theorem appendSourceList_in_place_update_witness :
    hC2after.arrays = hC2.arrays ∧
    objGet (hC2after.getObj 0) "connect-src" = objGet (hC2.getObj 0) "connect-src" :=
  ⟨(appendSourceList_in_place_update hC2 0 "script-src" "'nonce-x'" hC2after
      (by decide) (by decide)).1,
   (appendSourceList_in_place_update hC2 0 "script-src" "'nonce-x'" hC2after
      (by decide) (by decide)).2.2.1 "connect-src" (by decide)⟩

/-- C4.  When the directive's current value normalizes to a non-empty
sequence — an array with at least one element, or a non-empty string split on
spaces — the append extends exactly that sequence with the new token;
`default-src` is not consulted (the result does not depend on it). -/
theorem appendSourceList_nonempty_existing (h : JsHeap) (pr : Nat)
    (name tok : String) (arr : List String)
    (hex : (∃ r, objGet (h.getObj pr) name = some (.vArr r) ∧ h.getArr r = arr) ∨
           (∃ s, objGet (h.getObj pr) name = some (.vStr s) ∧ s ≠ "" ∧
              jsSplit s = arr))
    (hne : arr ≠ []) :
    appendSourceList h pr name tok =
      .ok (h.setObj pr (objSet (h.getObj pr) name
        (.vStr (jsJoin " " (arr ++ [tok]))))) := by
  have hro : readOldValue h (h.getObj pr) name = .ok (some arr) := by
    rcases hex with ⟨r, hr, rfl⟩ | ⟨str, hs, hs0, rfl⟩
    · simp [readOldValue, hr]
    · simp [readOldValue, hs, hs0]
  have hlen : arr.length ≠ 0 := by simpa using hne
  simp [appendSourceList, hro, hlen]

/-- C4, witness: the claim's example — `P = ("script-src" : ["'self'"])`,
appending `'nonce-x'` yields `script-src = "'self' 'nonce-x'"`. -/
theorem appendSourceList_nonempty_existing_witness :
    appendSourceList hC4w 0 "script-src" "'nonce-x'" =
      .ok (hC4w.setObj 0 (objSet (hC4w.getObj 0) "script-src"
        (.vStr (jsJoin " " (["'self'"] ++ ["'nonce-x'"]))))) :=
  appendSourceList_nonempty_existing hC4w 0 "script-src" "'nonce-x'" ["'self'"]
    (Or.inl ⟨0, by decide, by decide⟩) (by decide)

/-- C5, counterexample.  The claim says append does not raise when the value
is a string; but the empty string is falsy, skips the string-to-array cast of
lines 52-54, and fails the array check of lines 56-58: append throws
`Unknown source list value` on it. -/
theorem empty_string_value_throws :
    appendSourceList hC5x 0 "script-src" "x" =
      .error "Unknown source list value" := by
  decide

/-- C5, amended.  A directive value that is neither absent, nor null, nor a
string, nor an array makes append fail fast with `Unknown source list value`;
so does the empty string (falsy, hence not cast to an array).  A non-empty
string never raises; absent, null and array values do not raise provided the
`default-src` consulted by the fallback path evaluates to a base list (it is
absent, null, falsy, or an array). -/
theorem appendSourceList_error_classification (h : JsHeap) (pr : Nat)
    (name tok : String) :
    (∀ t, objGet (h.getObj pr) name = some (.vOther t) →
       appendSourceList h pr name tok = .error "Unknown source list value") ∧
    (objGet (h.getObj pr) name = some (.vStr "") →
       appendSourceList h pr name tok = .error "Unknown source list value") ∧
    (∀ str, objGet (h.getObj pr) name = some (.vStr str) → str ≠ "" →
       ∃ h', appendSourceList h pr name tok = .ok h') ∧
    ((objGet (h.getObj pr) name = none ∨
      objGet (h.getObj pr) name = some .vNull ∨
      (∃ r, objGet (h.getObj pr) name = some (.vArr r))) →
     (∃ base, defaultSrcFallback h (h.getObj pr) = .ok base) →
     ∃ h', appendSourceList h pr name tok = .ok h') := by
  refine ⟨?_, ?_, ?_, ?_⟩
  · intro t ht
    simp [appendSourceList, readOldValue, ht]
  · intro ht
    simp [appendSourceList, readOldValue, ht]
  · intro str hs hs0
    have hro : readOldValue h (h.getObj pr) name = .ok (some (jsSplit str)) := by
      simp [readOldValue, hs, hs0]
    have hlen : (jsSplit str).length ≠ 0 := by simpa using jsSplit_ne_nil str
    have heq : appendSourceList h pr name tok =
        .ok (h.setObj pr (objSet (h.getObj pr) name
          (.vStr (jsJoin " " (jsSplit str ++ [tok]))))) := by
      simp [appendSourceList, hro, hlen]
    exact ⟨_, heq⟩
  · rintro hval ⟨base, hfb⟩
    have hfbeq : ∀ hro : readOldValue h (h.getObj pr) name = .ok none,
        appendSourceList h pr name tok =
          .ok (h.setObj pr (objSet (h.getObj pr) name
            (.vStr (jsJoin " " (base ++ [tok]))))) := by
      intro hro
      simp [appendSourceList, hro, hfb]
    rcases hval with hh | hh | ⟨r, hh⟩
    · exact ⟨_, hfbeq (by simp [readOldValue, hh])⟩
    · exact ⟨_, hfbeq (by simp [readOldValue, hh])⟩
    · by_cases hl : (h.getArr r).length = 0
      · have hro : readOldValue h (h.getObj pr) name = .ok (some (h.getArr r)) := by
          simp [readOldValue, hh]
        have heq : appendSourceList h pr name tok =
            .ok (h.setObj pr (objSet (h.getObj pr) name
              (.vStr (jsJoin " " (base ++ [tok]))))) := by
          simp [appendSourceList, hro, hl, hfb]
        exact ⟨_, heq⟩
      · have hro : readOldValue h (h.getObj pr) name = .ok (some (h.getArr r)) := by
          simp [readOldValue, hh]
        have heq : appendSourceList h pr name tok =
            .ok (h.setObj pr (objSet (h.getObj pr) name
              (.vStr (jsJoin " " (h.getArr r ++ [tok]))))) := by
          simp [appendSourceList, hro, hl]
        exact ⟨_, heq⟩

/-- C5, witness: a non-array, non-string, non-null value (`vOther`) raises
`Unknown source list value`; an absent directive with absent `default-src`
does not raise. -/
theorem appendSourceList_error_classification_witness :
    appendSourceList hC5a 0 "connect-src" "x" =
      .error "Unknown source list value" ∧
    (∃ h', appendSourceList hC5b 0 "connect-src" "x" = .ok h') :=
  ⟨(appendSourceList_error_classification hC5a 0 "connect-src" "x").1 true (by decide),
   (appendSourceList_error_classification hC5b 0 "connect-src" "x").2.2.2
     (Or.inl (by decide)) ⟨[], by decide⟩⟩

/-- C6.  allowLiveReload iterates the candidate hosts `localhost`, `0.0.0.0`,
then the configured hostname in that order, skipping falsy entries (an absent
hostname and the empty hostname give the same run), and for each candidate
appends the websocket origin (`ws://` with TLS off) to `connect-src` and the
bare `host:port` to `script-src`; on the claim's example the resulting source
lists are exactly the claimed ones, in candidate order. -/
theorem allowLiveReload_spec :
    (∀ (h : JsHeap) (pr port : Nat) (ssl : Bool),
        allowLiveReload h pr ⟨none, port, ssl⟩ =
          allowLiveReload h pr ⟨some "", port, ssl⟩) ∧
    liveReloadCandidates (some "example.com") =
      ["localhost", "0.0.0.0", "example.com"] ∧
    allowLiveReload hC6 0 ⟨some "example.com", 4200, false⟩ = .ok hC6res := by
  refine ⟨?_, by decide, by decide⟩
  intro h pr port ssl
  have hcand : liveReloadCandidates (none : Option String) =
      liveReloadCandidates (some "") := by decide
  show liveReloadHosts pr port ssl h (liveReloadCandidates none) =
    liveReloadHosts pr port ssl h (liveReloadCandidates (some ""))
  rw [hcand]

/-- C7.  On the header path, report-endpoint injection happens exactly when
report-only mode is active and `report-uri` is not already a key of the
working policy: with reportOnly off, or with `report-uri` present, the step
returns the state unchanged (no duplication); when it fires, it appends the
origin (protocol per ssl flag, host defaulting to localhost, port) to
`connect-src` through appendSourceList and then assigns `report-uri` directly
to exactly that origin followed by `/csp-report`. -/
theorem reportStep_injection_spec (h : JsHeap) (pr : Nat) (ro : Bool)
    (options : MiddlewareOptions) :
    (ro = false → reportStep h pr (requestHeader ro) options = .ok h) ∧
    (objHasKey (h.getObj pr) "report-uri" = true →
       reportStep h pr (requestHeader ro) options = .ok h) ∧
    (ro = true → objHasKey (h.getObj pr) "report-uri" = false →
       reportStep h pr (requestHeader ro) options =
         (match appendSourceList h pr "connect-src" (ecOrigin options) with
          | .error e => .error e
          | .ok h₁ => .ok (h₁.setObj pr (objSet (h₁.getObj pr) "report-uri"
              (.vStr (ecOrigin options ++ REPORT_PATH)))))) ∧
    (∀ h', ro = true → objHasKey (h.getObj pr) "report-uri" = false →
       pr < h.objects.length →
       reportStep h pr (requestHeader ro) options = .ok h' →
       objGet (h'.getObj pr) "report-uri" =
         some (.vStr (ecOrigin options ++ REPORT_PATH))) := by
  have hfound : jsIndexOfFound CSP_HEADER_REPORT_ONLY "Report-Only" = true := by
    decide
  have hnotfound : jsIndexOfFound CSP_HEADER "Report-Only" = false := by
    decide
  refine ⟨?_, ?_, ?_, ?_⟩
  · rintro rfl
    simp [reportStep, requestHeader, hnotfound]
  · intro hk
    cases ro <;> simp [reportStep, requestHeader, hk, hfound, hnotfound]
  · rintro rfl hk
    simp [reportStep, requestHeader, hfound, hk]
  · rintro h' rfl hk hpr hok
    rw [(by simp [reportStep, requestHeader, hfound, hk] :
      reportStep h pr (requestHeader true) options =
        (match appendSourceList h pr "connect-src" (ecOrigin options) with
         | .error e => .error e
         | .ok h₁ => .ok (h₁.setObj pr (objSet (h₁.getObj pr) "report-uri"
             (.vStr (ecOrigin options ++ REPORT_PATH))))))] at hok
    split at hok
    · exact absurd hok (by simp)
    · rename_i h₁ e₁
      cases hok
      have hlen : pr < h₁.objects.length := by
        rw [appendSourceList_objects_length e₁]
        exact hpr
      rw [getObj_setObj_self _ _ _ hlen, objGet_objSet_self]

/-- C7, witness: with `report-uri` already present the state is unchanged;
with reportOnly off the state is unchanged; and on an empty working policy
with reportOnly on, the injected `report-uri` is exactly the computed origin
followed by `/csp-report`. -/
theorem reportStep_injection_spec_witness :
    reportStep hC7a 0 (requestHeader true) optsC7 = .ok hC7a ∧
    reportStep hC7b 0 (requestHeader false) optsC7 = .ok hC7b ∧
    objGet (hC7res.getObj 0) "report-uri" =
      some (.vStr (ecOrigin optsC7 ++ REPORT_PATH)) :=
  ⟨(reportStep_injection_spec hC7a 0 true optsC7).2.1 (by decide),
   (reportStep_injection_spec hC7b 0 false optsC7).1 rfl,
   (reportStep_injection_spec hC7b 0 true optsC7).2.2.2 hC7res rfl (by decide)
     (by decide) (by decide)⟩

/-- C8.  When the serialized working policy is empty, the emission step of
the middleware performs no response action at all — neither setting nor
clearing any Content-Security-Policy header — and an empty policy is not an
error (the step still returns normally); when the serialization is non-empty
it clears the stale headers and sets the active ones with that non-empty
value. -/
theorem emitStep_empty_policy (h : JsHeap) (pr : Nat) (header : String) :
    (buildPolicyString h (h.getObj pr) = "" → emitStep h pr header = []) ∧
    (buildPolicyString h (h.getObj pr) ≠ "" →
       emitStep h pr header =
         [ .removeHeader CSP_HEADER,
           .removeHeader CSP_HEADER_REPORT_ONLY,
           .setHeader header (buildPolicyString h (h.getObj pr)),
           .removeHeader ("X-" ++ CSP_HEADER),
           .removeHeader ("X-" ++ CSP_HEADER_REPORT_ONLY),
           .setHeader ("X-" ++ header) (buildPolicyString h (h.getObj pr)) ]) := by
  constructor <;> intro hempty <;> simp [emitStep, hempty]

/-- C8, witness: a policy whose directives all serialize to nothing (an empty
source-list array and a null value) produces the empty serialization and no
header traffic. -/
theorem emitStep_empty_policy_witness :
    emitStep hC8 0 CSP_HEADER = [] :=
  (emitStep_empty_policy hC8 0 CSP_HEADER).1 (by decide)

/-- C3.  The configured base policy is never corrupted by request or build
handling: both the request handler (header path) and the head-content hook
(meta path) allocate a working shallow copy of the configured policy object
and perform every append and assignment on that copy only, while the copied
source-list arrays are never written (appendSourceList copies before
extending) — so after any run the stored base policy object and every array
cell of the heap, in particular the source-list arrays the base policy
references, are unchanged, and concurrent requests cannot observe each
other's appended state. -/
theorem base_config_never_corrupted (h : JsHeap) (config : AddonConfig)
    (liveReload : Option StoredLiveReload) (options : MiddlewareOptions)
    (environment : String) (hpol : config.policy < h.objects.length) :
    (∀ h' acts, processRequest h config liveReload options = .ok (h', acts) →
       h'.getObj config.policy = h.getObj config.policy ∧ h'.arrays = h.arrays) ∧
    (∀ h' res, contentForHead h config liveReload environment = .ok (h', res) →
       h'.getObj config.policy = h.getObj config.policy ∧ h'.arrays = h.arrays) := by
  have hne : config.policy ≠ (workingCopy h config).2 := Nat.ne_of_lt hpol
  have hbase : ∀ h₄ : JsHeap,
      framePreserves (workingCopy h config).2 (workingCopy h config).1 h₄ →
      h₄.getObj config.policy = h.getObj config.policy ∧ h₄.arrays = h.arrays := by
    intro h₄ f
    constructor
    · show (h₄.objects.get? config.policy).getD [] =
        (h.objects.get? config.policy).getD []
      rw [f.2 config.policy hne]
      show ((h.objects ++ [h.getObj config.policy]).get? config.policy).getD [] =
        (h.objects.get? config.policy).getD []
      rw [list_getq_append_left _ _ _ hpol]
    · exact f.1
  constructor
  · intro h' acts hok
    unfold processRequest at hok
    split at hok
    · injection hok with hpair
      injection hpair with h1 h2
      subst h1
      exact ⟨rfl, rfl⟩
    · split at hok
      · exact absurd hok (by simp)
      · rename_i h₂ e₂
        split at hok
        · exact absurd hok (by simp)
        · rename_i h₃ e₃
          split at hok
          · exact absurd hok (by simp)
          · rename_i h₄ e₄
            injection hok with hpair
            injection hpair with h1 h2
            subst h1
            exact hbase h₄ (framePreserves_trans (testNonceStep_framePreserves e₂)
              (framePreserves_trans (liveReloadStep_framePreserves e₃)
                (reportStep_framePreserves e₄)))
  · intro h' res hok
    unfold contentForHead at hok
    split at hok
    · injection hok with hpair
      injection hpair with h1 h2
      subst h1
      exact ⟨rfl, rfl⟩
    · split at hok
      · injection hok with hpair
        injection hpair with h1 h2
        subst h1
        exact ⟨rfl, rfl⟩
      · split at hok
        · exact absurd hok (by simp)
        · rename_i h₂ e₂
          split at hok
          · exact absurd hok (by simp)
          · rename_i h₃ e₃
            have fr := framePreserves_trans (metaNonceStep_framePreserves e₂)
              (liveReloadStep_framePreserves e₃)
            split at hok
            · injection hok with hpair
              injection hpair with h1 h2
              subst h1
              exact hbase h₃ fr
            · injection hok with hpair
              injection hpair with h1 h2
              subst h1
              exact hbase h₃ fr

/-- C3, witness: a concrete request run against a configured policy with
three referenced source-list arrays — afterwards the stored base policy
object and all array cells are unchanged. -/
theorem base_config_never_corrupted_witness :
    hWres.getObj 0 = hW.getObj 0 ∧ hWres.arrays = hW.arrays :=
  (base_config_never_corrupted hW cfgW none optsW "development"
    (by decide)).1 hWres actsW (by decide)

/-- A key whose lookup succeeds is a binding of the object. -/
theorem objGet_mem {o : PolicyObj} {k : String} {v : JVal}
    (hg : objGet o k = some v) : (k, v) ∈ o := by
  induction o with
  | nil => simp [objGet] at hg
  | cons p rest ih =>
    obtain ⟨k₀, v₀⟩ := p
    by_cases hk : k₀ = k
    · subst hk
      have hv : v₀ = v := by simpa [objGet] using hg
      subst hv
      exact List.mem_cons_self _ _
    · simp only [objGet, if_neg hk] at hg
      exact List.mem_cons_of_mem _ (ih hg)

/-- C9, counterexample.  On the meta path, a forbidden directive that is
present but empty-valued is warned about, yet the emitted meta tag's content
does not contain it: the serializer drops every empty-valued directive, so
warn-and-keep does not guarantee containment.  Here the working policy has
`report-uri: ""`: one warning is produced, but the content is exactly
`default-src 'none'`. -/
theorem meta_empty_value_dropped_counterexample :
    contentForHead hC9 cfgC9 none "development" =
      .ok (hC9res, ⟨[metaWarning "report-uri"],
        some "<meta http-equiv=\"Content-Security-Policy\" content=\"default-src 'none'\">"⟩) ∧
    "report-uri" ∈ unsupportedDirectives (hC9res.getObj 1) ∧
    policyClauses hC9res (hC9res.getObj 1) = ["default-src 'none'"] := by
  refine ⟨by decide, by decide, by decide⟩

/-- C9, amended.  Before meta serialization, the warned-about directives are
exactly the forbidden names `report-uri`, `frame-ancestors`, `sandbox` that
occur as keys of the policy — one warning each, never more — and no forbidden
directive is stripped: every forbidden directive whose value serializes to a
non-empty string still contributes its clause to the serialized policy (an
empty-valued one is dropped by the serializer's general empty-value rule, as
any directive would be, not by forbidden-set stripping). -/
theorem meta_warn_and_keep (h : JsHeap) (o : PolicyObj) (name : String) :
    (name ∈ unsupportedDirectives o ↔
      name ∈ META_UNSUPPORTED_DIRECTIVES ∧ objHasKey o name = true) ∧
    (unsupportedDirectives o).count name ≤ 1 ∧
    (∀ v, name ∈ META_UNSUPPORTED_DIRECTIVES → objGet o name = some v →
       valueStringForm h v ≠ "" →
       (name ++ " " ++ valueStringForm h v) ∈ policyClauses h o) := by
  refine ⟨?_, ?_, ?_⟩
  · simp [unsupportedDirectives, List.mem_filter]
  · have nd : (unsupportedDirectives o).Nodup := by
      have hbase : META_UNSUPPORTED_DIRECTIVES.Nodup := by decide
      exact hbase.filter _
    exact List.nodup_iff_count_le_one.mp nd name
  · intro v _ hget hne
    have hmem : (name, v) ∈ o.filter (fun p => valueStringForm h p.2 != "") := by
      rw [List.mem_filter]
      exact ⟨objGet_mem hget, by simpa using hne⟩
    exact List.mem_map.mpr ⟨(name, v), hmem, rfl⟩

/-- C9, witness: a policy holding a non-empty `report-uri` — it is warned
about (it is in the unsupported list and present), at most once, and its
clause survives into the serialized clauses. -/
theorem meta_warn_and_keep_witness :
    "report-uri" ∈ unsupportedDirectives oC9w ∧
    (unsupportedDirectives oC9w).count "report-uri" ≤ 1 ∧
    ("report-uri" ++ " " ++ valueStringForm hC9wheap (.vStr "https://r.example/collect")) ∈
      policyClauses hC9wheap oC9w :=
  ⟨(meta_warn_and_keep hC9wheap oC9w "report-uri").1.mpr ⟨by decide, by decide⟩,
   (meta_warn_and_keep hC9wheap oC9w "report-uri").2.1,
   (meta_warn_and_keep hC9wheap oC9w "report-uri").2.2
     (.vStr "https://r.example/collect") (by decide) (by decide) (by decide)⟩

/-- C10.  The nonce injected into script-src is the fixed compile-time
constant `'nonce-abcdefg'` — the same literal for every request, build and
run, never freshly generated: the nonce step is the same pure function of the
state at every call, always appending that constant, and on success the new
script-src value ends in it.  On the header path the nonce step runs
unconditionally for every enabled request, before any other policy change and
with no dependence on the environment; on the meta path it runs exactly when
the application environment is `test`. -/
theorem static_test_nonce (h : JsHeap) (pr : Nat) :
    nonceToken = "'nonce-abcdefg'" ∧
    (∀ (g : JsHeap) (q : Nat), testNonceStep g q =
        appendSourceList g q "script-src" "'nonce-abcdefg'") ∧
    (∀ h', pr < h.objects.length → testNonceStep h pr = .ok h' →
       ∃ p, objGet (h'.getObj pr) "script-src" =
         some (.vStr (p ++ "'nonce-abcdefg'"))) ∧
    (∀ env (g : JsHeap) (q : Nat), env ≠ "test" → metaNonceStep env g q = .ok g) ∧
    (∀ (g : JsHeap) (q : Nat), metaNonceStep "test" g q = testNonceStep g q) ∧
    (∀ (config : AddonConfig) lr options, config.enabled = true →
       processRequest h config lr options =
         (match testNonceStep (workingCopy h config).1 (workingCopy h config).2 with
          | .error e => .error e
          | .ok h₂ =>
              match liveReloadStep h₂ (workingCopy h config).2 lr with
              | .error e => .error e
              | .ok h₃ =>
                  match reportStep h₃ (workingCopy h config).2
                      (requestHeader config.reportOnly) options with
                  | .error e => .error e
                  | .ok h₄ => .ok (h₄, emitStep h₄ (workingCopy h config).2
                        (requestHeader config.reportOnly)))) := by
  have hn : nonceToken = "'nonce-abcdefg'" := by decide
  refine ⟨hn, ?_, ?_, ?_, ?_, ?_⟩
  · intro g q
    show appendSourceList g q "script-src" nonceToken =
      appendSourceList g q "script-src" "'nonce-abcdefg'"
    rw [hn]
  · intro h' hpr hok
    obtain ⟨base, rfl⟩ := appendSourceList_ok_shape hok
    obtain ⟨p, hp⟩ := jsJoin_snoc " " nonceToken base
    refine ⟨p, ?_⟩
    rw [getObj_setObj_self _ _ _ hpr, objGet_objSet_self, hp, hn]
  · intro env g q hne
    simp [metaNonceStep, hne]
  · intro g q
    simp [metaNonceStep]
  · intro config lr options hen
    simp [processRequest, hen]

/-- C10, witness: the constant value of the token; the meta path skips the
nonce in a non-test environment; and after a concrete nonce step the
script-src value ends in `'nonce-abcdefg'`. -/
theorem static_test_nonce_witness :
    nonceToken = "'nonce-abcdefg'" ∧
    metaNonceStep "development" hN 0 = .ok hN ∧
    (∃ p, objGet (hNres.getObj 0) "script-src" =
       some (.vStr (p ++ "'nonce-abcdefg'"))) :=
  ⟨(static_test_nonce hN 0).1,
   (static_test_nonce hN 0).2.2.2.1 "development" hN 0 (by decide),
   (static_test_nonce hN 0).2.2.1 hNres (by decide) (by decide)⟩
